import Mathlib

/-!
Shallow embedding of `src/kernel_proc.c` (tinyos3 process management):
the process table, the PCB free-list allocator, process creation
(`sys_Exec`), the exit/wait protocol, and the procinfo enumeration
stream.  Pointers are modelled as indices (PIDs, FCB ids, heap block
ids); the `unsigned int` counter `process_count` is modelled as a `Nat`
reduced modulo `2 ^ 32`.  `MAX_PROC`, `MAX_FILEID` and
`PROCINFO_MAX_ARGS_SIZE` come from headers that are not part of the
sources, so they are kept as parameters (`N`, `MF`, `M`).
-/

namespace KernelProc

/-- `pstate_t`: the state of a process slot. -/
inductive PState where
  | FREE
  | ALIVE
  | ZOMBIE
deriving DecidableEq

/-- Modelled from the spec: `NOPROC` is the "no such process" sentinel
defined in the missing header; the code only requires it to be distinct
from every valid PID (every valid PID is ≥ 0). -/
def NOPROC : Int := -1

/-- Thread control record (`PTCB`).  Modelled from the spec: `init_ptcb`
(not part of the sources) creates a thread-control record storing the
task, argument length and argument pointer it is given; `tcb` records
the thread attached to it by `spawn_thread`. -/
structure PTCB where
  task : Nat
  argl : Int
  args : Option Nat
  tcb : Nat
deriving DecidableEq

/-- A process control block (`PCB`).  `parent` is a PID, `fidt` entries
are FCB identifiers, `args` identifies a heap block.  The default field
values are the ones established by `initialize_PCB`. -/
structure PCB where
  pstate : PState := .FREE
  parent : Option Nat := none
  children_list : List Nat := []
  exited_list : List Nat := []
  fidt : Nat → Option Nat := fun _ => none
  thread_count : Nat := 0
  main_task : Option Nat := none
  main_thread : Option Nat := none
  ptcb_list : List PTCB := []
  argl : Int := 0
  args : Option Nat := none
  exitval : Int := 0

/-- Kernel state: the process table `PT` (only indices below `MAX_PROC`
are ever used), the slot counter, the free list (the chaining of the
`parent` fields of free PCBs is modelled as an explicit list of slot
indices), the FCB reference counts, the heap of argument blocks, and
the set of threads made runnable by `wakeup`. -/
structure KState where
  PT : Nat → PCB
  process_count : Nat := 0
  pcb_freelist : List Nat := []
  fcb_refcount : Nat → Nat := fun _ => 0
  heap : Nat → List Int := fun _ => []
  next_alloc : Nat := 0
  next_tcb : Nat := 0
  runnable : List Nat := []

/-- Point update of the process table. -/
def setPT (f : Nat → PCB) (p : Nat) (pcb : PCB) : Nat → PCB :=
  fun q => if q = p then pcb else f q

@[simp] lemma setPT_same (f : Nat → PCB) (p : Nat) (pcb : PCB) :
    setPT f p pcb p = pcb := by
  simp [setPT]

lemma setPT_ne (f : Nat → PCB) (p : Nat) (pcb : PCB) {q : Nat} (h : q ≠ p) :
    setPT f p pcb q = f q := by
  simp [setPT, h]

/-- Update one slot of the table in a state. -/
def updPT (s : KState) (p : Nat) (g : PCB → PCB) : KState :=
  { s with PT := setPT s.PT p (g (s.PT p)) }

/-- `get_pid`: NOPROC for a NULL pointer, else the slot index. -/
def get_pid : Option Nat → Int
  | none => NOPROC
  | some p => (p : Int)

/-- `get_pcb`: NULL when the slot is FREE, else (a pointer to) the slot. -/
def get_pcb (s : KState) (pid : Nat) : Option Nat :=
  if (s.PT pid).pstate = .FREE then none else some pid

/-- Number of non-FREE slots among the first `N` table entries. -/
def countNonFree (f : Nat → PCB) (N : Nat) : Nat :=
  (List.range N).countP (fun q => (f q).pstate != PState.FREE)

lemma countNonFree_succ (f : Nat → PCB) (N : Nat) :
    countNonFree f (N + 1)
      = countNonFree f N + (if (f N).pstate != PState.FREE then 1 else 0) := by
  simp [countNonFree, List.range_succ, List.countP_append, List.countP_cons]

lemma countNonFree_congr {f g : Nat → PCB} {N : Nat}
    (h : ∀ q, q < N → f q = g q) : countNonFree f N = countNonFree g N := by
  induction N with
  | zero => rfl
  | succ n ih =>
      rw [countNonFree_succ, countNonFree_succ,
        ih (fun q hq => h q (Nat.lt_succ_of_lt hq)), h n (Nat.lt_succ_self n)]

lemma countNonFree_setPT {p N : Nat} (f : Nat → PCB) (pcb : PCB) (hp : p < N) :
    countNonFree (setPT f p pcb) N + (if (f p).pstate != PState.FREE then 1 else 0)
      = countNonFree f N + (if pcb.pstate != PState.FREE then 1 else 0) := by
  induction N with
  | zero => exact absurd hp (Nat.not_lt_zero p)
  | succ n ih =>
      rcases Nat.lt_succ_iff_lt_or_eq.mp hp with h | h
      · rw [countNonFree_succ, countNonFree_succ,
          setPT_ne f p pcb (show n ≠ p by omega)]
        have h2 := ih h
        omega
      · subst h
        rw [countNonFree_succ, countNonFree_succ, setPT_same,
          countNonFree_congr (fun q hq => setPT_ne f p pcb (show q ≠ p by omega))]
        have h3 : countNonFree (fun q => f q) p = countNonFree f p := rfl
        omega

lemma countNonFree_le (f : Nat → PCB) (N : Nat) : countNonFree f N ≤ N := by
  have h := @List.countP_le_length Nat (fun q => (f q).pstate != PState.FREE)
    (List.range N)
  simpa [countNonFree] using h

lemma countNonFree_pos {f : Nat → PCB} {p N : Nat} (hp : p < N)
    (h : (f p).pstate ≠ .FREE) : 1 ≤ countNonFree f N := by
  have hmem : p ∈ List.range N := List.mem_range.mpr hp
  have hpos : 0 < (List.range N).countP (fun q => (f q).pstate != PState.FREE) :=
    List.countP_pos_iff.mpr ⟨p, hmem, by simpa using h⟩
  simpa [countNonFree] using hpos

/-- `UINT_MAX + 1`: modulus of the C `unsigned int` counter. -/
def UINT_MOD : Nat := 2 ^ 32

/-- `acquire_PCB`: pop a slot off the free list, mark it ALIVE and bump
`process_count`; return NULL (`none`) when the free list is empty. -/
def acquire_PCB (s : KState) : KState × Option Nat :=
  match s.pcb_freelist with
  | [] => (s, none)
  | p :: rest =>
      ({ s with PT := setPT s.PT p { s.PT p with pstate := .ALIVE },
                pcb_freelist := rest,
                process_count := (s.process_count + 1) % UINT_MOD },
       some p)

/-- `release_PCB`: mark the slot FREE, push it back onto the free list
(the `parent` field is repurposed as the free-list link, hence cleared)
and decrement `process_count`. -/
def release_PCB (s : KState) (p : Nat) : KState :=
  { s with PT := setPT s.PT p { s.PT p with pstate := .FREE, parent := none },
           pcb_freelist := p :: s.pcb_freelist,
           process_count := (s.process_count + (UINT_MOD - 1)) % UINT_MOD }

/-- The state built by `initialize_processes` just before it launches the
idle process: every PCB as left by `initialize_PCB`, the free list
holding slots `0, 1, ..., N-1` in that order, `process_count = 0`. -/
def initialize_processes (N : Nat) : KState :=
  { PT := fun _ => {}, pcb_freelist := List.range N }

/-- Bump one FCB reference count (`FCB_incref`; the FCB machinery is
external, only the counter matters here). -/
def bump (rc : Nat → Nat) (f : Nat) : Nat → Nat :=
  fun g => if g = f then rc g + 1 else rc g

/-- The reference-count effect of the handle-inheritance loop of
`sys_Exec`: for every index `i` in the list, if `fidt i` is a non-empty
handle, `FCB_incref` it. -/
def increfs (rc : Nat → Nat) (fidt : Nat → Option Nat) : List Nat → (Nat → Nat)
  | [] => rc
  | i :: is =>
      match fidt i with
      | some f => increfs (bump rc f) fidt is
      | none => increfs rc fidt is

lemma increfs_count (fidt : Nat → Option Nat) (l : List Nat)
    (rc : Nat → Nat) (g : Nat) :
    increfs rc fidt l g = rc g + l.countP (fun i => fidt i == some g) := by
  induction l generalizing rc with
  | nil => simp [increfs]
  | cons i is ih =>
      rw [List.countP_cons]
      cases hfi : fidt i with
      | none => simp [increfs, hfi, ih]
      | some f =>
          have hred : increfs rc fidt (i :: is) g = increfs (bump rc f) fidt is g := by
            simp [increfs, hfi]
          rw [hred, ih]
          by_cases hg : g = f
          · subst hg
            simp only [bump, if_pos rfl, hfi, beq_self_eq_true, if_true]
            omega
          · have h1 : bump rc f g = rc g := by simp [bump, hg]
            have h2 : (some f == some g) = false := by
              simp only [beq_eq_false_iff_ne, ne_eq, Option.some.injEq]
              exact fun h => hg h.symm
            rw [h1, h2]
            simp

/-- Replace the FCB reference-count table of a state. -/
def setRefcount (s : KState) (rc : Nat → Nat) : KState :=
  { s with fcb_refcount := rc }

/-- `malloc` a fresh block holding `blob` (the `memcpy` target); returns
the new state and the fresh block id. -/
def malloc_copy (s : KState) (blob : List Int) : KState × Nat :=
  ({ s with heap := fun b => if b = s.next_alloc then blob else s.heap b,
            next_alloc := s.next_alloc + 1 },
   s.next_alloc)

/-- Consume a fresh thread id (the effect of `spawn_thread` on the
thread namespace; the thread machinery itself is external). -/
def bump_next_tcb (s : KState) : KState :=
  { s with next_tcb := s.next_tcb + 1 }

/-- The parentage / inheritance part of `sys_Exec` (lines 157-177): a
new slot with pid ≤ 1 is parentless; otherwise the new slot's parent
becomes the caller, the new pid is pushed onto the *front* of the
caller's children list, and the caller's handle table is inherited,
incrementing the reference count of each non-empty entry. -/
def exec_set_parent (MF : Nat) (s1 : KState) (np cur : Nat) : KState :=
  if np ≤ 1 then
    updPT s1 np (fun pcb => { pcb with parent := none })
  else
    let sA := updPT s1 np (fun pcb => { pcb with parent := some cur })
    let sB := updPT sA cur
      (fun pcb => { pcb with children_list := np :: pcb.children_list })
    let sC := updPT sB np (fun pcb =>
      { pcb with fidt := fun i => if i < MF then (sB.PT cur).fidt i else pcb.fidt i })
    setRefcount sC (increfs sC.fcb_refcount (sB.PT cur).fidt (List.range MF))

/-- The argument-copy part of `sys_Exec` (lines 184-190): a non-NULL
argument buffer is duplicated (`malloc` + `memcpy` of `argl` bytes)
into a fresh block owned by the new process; the second component is
the value stored into `newproc->args`. -/
def exec_copy_args (s3 : KState) (argl : Int) (args : Option Nat) :
    KState × Option Nat :=
  match args with
  | some a =>
      let m := malloc_copy s3 ((s3.heap a).take argl.toNat)
      (m.1, some m.2)
  | none => (s3, none)

/-- The thread-creation part of `sys_Exec` (lines 197-207, before the
`wakeup`): spawn the main thread (modelled from the spec as handing out
a fresh thread id), build its PTCB via `init_ptcb(call, argl, args)` —
note the *caller's* argument pointer is passed, not the copy — link it,
append it to the new slot's `ptcb_list`, set `thread_count` to 1 and
record the main thread.  Returns the new state and the spawned thread. -/
def exec_spawn (s5 : KState) (np c : Nat) (argl : Int) (args : Option Nat) :
    KState × Nat :=
  let tcb := s5.next_tcb
  let ptcb : PTCB := { task := c, argl := argl, args := args, tcb := tcb }
  (updPT (bump_next_tcb s5) np (fun pcb =>
      { pcb with ptcb_list := pcb.ptcb_list ++ [ptcb],
                 thread_count := 1,
                 main_thread := some tcb }),
   tcb)

/-- The straight-line middle of `sys_Exec` on the acquired slot `np`:
parentage/inheritance, then `newproc->main_task = call`, then the
argument copy and the `argl`/`args` fields. -/
def exec_common (MF : Nat) (s1 : KState) (np cur : Nat) (call : Option Nat)
    (argl : Int) (args : Option Nat) : KState :=
  let s2 := exec_set_parent MF s1 np cur
  let s3 := updPT s2 np (fun pcb => { pcb with main_task := call })
  let ac := exec_copy_args s3 argl args
  updPT ac.1 np (fun pcb => { pcb with argl := argl, args := ac.2 })

/-- Core of `sys_Exec` (everything up to, but excluding, the final
`wakeup`): acquire a PCB (returning NOPROC when none is available), run
the straight-line middle, and — when the task is non-NULL — create the
main thread.  Returns the new state, `sys_Exec`'s return value
`get_pid(newproc)`, and the thread to wake up (if any). -/
def sys_Exec_core (MF : Nat) (s : KState) (cur : Nat) (call : Option Nat)
    (argl : Int) (args : Option Nat) : KState × Int × Option Nat :=
  let a := acquire_PCB s
  match a.2 with
  | none => (a.1, NOPROC, none)
  | some np =>
      let s5 := exec_common MF a.1 np cur call argl args
      match call with
      | none => (s5, (np : Int), none)
      | some c =>
          let sp := exec_spawn s5 np c argl args
          (sp.1, (np : Int), some sp.2)

/-- `wakeup`: make a thread runnable (scheduler-external; it does not
touch the process table). -/
def wakeup (s : KState) (t : Nat) : KState :=
  { s with runnable := s.runnable ++ [t] }

/-- `sys_Exec`: the core, followed by the `wakeup` of the main thread
as the very last step. -/
def sys_Exec (MF : Nat) (s : KState) (cur : Nat) (call : Option Nat)
    (argl : Int) (args : Option Nat) : KState × Int :=
  let e := sys_Exec_core MF s cur call argl args
  match e.2.2 with
  | none => (e.1, e.2.1)
  | some t => (wakeup e.1 t, e.2.1)

/-- `sys_GetPPid`. -/
def sys_GetPPid (s : KState) (cur : Nat) : Int :=
  get_pid ((s.PT cur).parent)

/-- `cleanup_zombie`: read the exit value out (when a status pointer was
passed), unlink the child's `children_node`/`exited_node` from the rings
they are on (those rings are the lists of the child's parent), and
release the slot.  Returns the new state and the value written through
`status`. -/
def cleanup_zombie (s : KState) (child : Nat) (want : Bool) :
    KState × Option Int :=
  let st := if want then some ((s.PT child).exitval) else none
  let s1 :=
    match (s.PT child).parent with
    | some par => updPT s par (fun pcb =>
        { pcb with children_list := pcb.children_list.erase child,
                   exited_list := pcb.exited_list.erase child })
    | none => s
  (release_PCB s1 child, st)

/-- Outcome of one evaluation of a wait call: it suspends on
`kernel_wait` (`blocks`), trips the `assert` (`aborts`), or returns
without ever blocking. -/
inductive WaitOutcome where
  | blocks
  | aborts
  | returns (s : KState) (pid : Int) (status : Option Int)

/-- `wait_for_specific_child`: legality checks (range, FREE slot via
`get_pcb`, parentage), then wait while the child is ALIVE — modelled as
`blocks` when the first test of the loop guard is true — and otherwise
reclaim the zombie. -/
def wait_for_specific_child (N : Nat) (s : KState) (cur : Nat) (cpid : Int)
    (want : Bool) : WaitOutcome :=
  if cpid < 0 ∨ (N : Int) ≤ cpid then .returns s NOPROC none
  else if get_pcb s cpid.toNat = none ∨ (s.PT cpid.toNat).parent ≠ some cur then
    .returns s NOPROC none
  else if (s.PT cpid.toNat).pstate = .ALIVE then .blocks
  else
    let r := cleanup_zombie s cpid.toNat want
    .returns r.1 cpid r.2

/-- `wait_for_any_child`: break out with NOPROC when the caller has no
children at all; otherwise reclaim the head (the oldest element) of the
caller's `exited_list` — after the `assert` that it is a ZOMBIE — or
block when no child has exited yet. -/
def wait_for_any_child (s : KState) (cur : Nat) (want : Bool) : WaitOutcome :=
  if (s.PT cur).children_list = [] then .returns s NOPROC none
  else
    match (s.PT cur).exited_list with
    | [] => .blocks
    | c :: _ =>
        if (s.PT c).pstate = .ZOMBIE then
          let r := cleanup_zombie s c want
          .returns r.1 (c : Int) r.2
        else .aborts

/-- `sys_WaitChild`: dispatch on whether a specific child is named. -/
def sys_WaitChild (N : Nat) (s : KState) (cur : Nat) (cpid : Int)
    (want : Bool) : WaitOutcome :=
  if cpid ≠ NOPROC then wait_for_specific_child N s cur cpid want
  else wait_for_any_child s cur want

/-- The exit-value recording step of `sys_Exit` (line
`if(exitval) (curproc->exitval = exitval);`).  The rest of `sys_Exit`
(the init-process drain loop and `sys_ThreadExit`) blocks or lives
outside the sources and never writes `exitval`. -/
def sys_Exit_store (s : KState) (p : Nat) (v : Int) : KState :=
  if v ≠ 0 then updPT s p (fun pcb => { pcb with exitval := v }) else s

/-- The fixed-size snapshot record filled in by `procinfo_read`
(`procinfo` struct).  `args` keeps whatever bytes a previous read left
beyond the copied prefix, as the C struct does. -/
structure ProcInfo where
  alive : Bool := false
  pid : Int := 0
  ppid : Int := 0
  thread_count : Nat := 0
  main_task : Option Nat := none
  argl : Int := 0
  args : Nat → Int := fun _ => 0

/-- The `procinfo_cb` stream state: a cursor into the table plus the
reused snapshot record. -/
structure ProcinfoCB where
  pcbcursor : Nat := 0
  info : ProcInfo := {}

/-- The cursor-advancing loop of `procinfo_read`, with explicit fuel
(structural recursion so that it evaluates): the first index in
`[c, N)` whose slot is non-FREE, if any, reachable within `fuel`
steps. -/
def procinfo_scan_aux (f : Nat → PCB) (N : Nat) : Nat → Nat → Option Nat
  | 0, _ => none
  | fuel + 1, c =>
      if c < N then
        if (f c).pstate = .FREE then procinfo_scan_aux f N fuel (c + 1)
        else some c
      else none

/-- The cursor-advancing loop of `procinfo_read`: the first index
`k ∈ [c, N)` whose slot is non-FREE, if any. -/
def procinfo_scan (f : Nat → PCB) (N : Nat) (c : Nat) : Option Nat :=
  procinfo_scan_aux f N (N - c) c

/-- The snapshot `procinfo_read` takes of slot `k`: liveness flag, pid,
parent pid, thread count, main task, argument length, and the argument
bytes copied one by one for indices below both `argl` and
`PROCINFO_MAX_ARGS_SIZE` (`M`); other `args` bytes keep the previous
snapshot's contents. -/
def snapshot (s : KState) (M : Nat) (old : ProcInfo) (k : Nat) : ProcInfo :=
  let pcb := s.PT k
  let content : List Int :=
    match pcb.args with
    | some b => s.heap b
    | none => []
  { alive := pcb.pstate == .ALIVE
    pid := (k : Int)
    ppid := get_pid pcb.parent
    thread_count := pcb.thread_count
    main_task := pcb.main_task
    argl := pcb.argl
    args := fun i => if (i : Int) < pcb.argl ∧ i < M then content.getD i 0
                     else old.args i }

/-- `procinfo_read`: return 0 (modelled as `none`) once the cursor is at
`MAX_PROC`; otherwise advance past FREE slots — returning 0 with the
cursor parked at `MAX_PROC` when none is left — and copy the snapshot
of the next non-free slot into the caller's buffer, leaving the cursor
one past it. -/
def procinfo_read (s : KState) (N M : Nat) (cb : ProcinfoCB) :
    ProcinfoCB × Option ProcInfo :=
  if cb.pcbcursor = N then (cb, none)
  else
    match procinfo_scan s.PT N cb.pcbcursor with
    | none => ({ cb with pcbcursor := N }, none)
    | some k =>
        let info := snapshot s M cb.info k
        ({ pcbcursor := k + 1, info := info }, some info)

/-- Allocator well-formedness: `process_count` counts the non-FREE
slots, the free list holds exactly the FREE slots (each in range,
without duplicates). -/
def INV (N : Nat) (s : KState) : Prop :=
  s.process_count = countNonFree s.PT N
  ∧ (∀ q ∈ s.pcb_freelist, q < N ∧ (s.PT q).pstate = .FREE)
  ∧ s.pcb_freelist.Nodup
  ∧ (∀ q ∈ List.range N, (s.PT q).pstate = .FREE → q ∈ s.pcb_freelist)

instance (N : Nat) (s : KState) : Decidable (INV N s) := by
  unfold INV
  exact inferInstance

lemma UINT_MOD_eq : UINT_MOD = 4294967296 := by norm_num [UINT_MOD]

lemma mod_sub_one {c : Nat} (h1 : 1 ≤ c) (h2 : c < UINT_MOD) :
    (c + (UINT_MOD - 1)) % UINT_MOD = c - 1 := by
  rw [UINT_MOD_eq] at h2 ⊢
  omega

lemma mod_roundtrip {c : Nat} (h : c < UINT_MOD) :
    ((c + (UINT_MOD - 1)) % UINT_MOD + 1) % UINT_MOD = c := by
  rw [UINT_MOD_eq] at h ⊢
  omega

lemma countNonFree_setPT_flip_on {f : Nat → PCB} {p N : Nat} {pcb : PCB}
    (hp : p < N) (hold : (f p).pstate = .FREE) (hnew : pcb.pstate ≠ .FREE) :
    countNonFree (setPT f p pcb) N = countNonFree f N + 1 := by
  have he := countNonFree_setPT f pcb hp
  have b1 : ((f p).pstate != PState.FREE) = false := by simp [hold]
  have b2 : (pcb.pstate != PState.FREE) = true := by simpa using hnew
  rw [b1, b2] at he
  simpa using he

lemma countNonFree_setPT_flip_off {f : Nat → PCB} {p N : Nat} {pcb : PCB}
    (hp : p < N) (hold : (f p).pstate ≠ .FREE) (hnew : pcb.pstate = .FREE) :
    countNonFree (setPT f p pcb) N = countNonFree f N - 1 := by
  have he := countNonFree_setPT f pcb hp
  have b1 : ((f p).pstate != PState.FREE) = true := by simpa using hold
  have b2 : (pcb.pstate != PState.FREE) = false := by simp [hnew]
  rw [b1, b2] at he
  simp at he
  omega

lemma countNonFree_setPT_same {f : Nat → PCB} {p N : Nat} {pcb : PCB}
    (hg : pcb.pstate = (f p).pstate) :
    countNonFree (setPT f p pcb) N = countNonFree f N := by
  by_cases hp : p < N
  · have h := countNonFree_setPT f pcb hp
    rw [hg] at h
    omega
  · exact countNonFree_congr fun q hq => setPT_ne f p pcb (by omega)

lemma updPT_pstate_eq {s : KState} {p : Nat} {g : PCB → PCB}
    (hg : (g (s.PT p)).pstate = (s.PT p).pstate) (q : Nat) :
    ((updPT s p g).PT q).pstate = (s.PT q).pstate := by
  by_cases h : q = p
  · subst h
    simp [updPT, hg]
  · simp [updPT, setPT_ne _ _ _ h]

/- Field equations for `acquire_PCB` and `release_PCB`. -/

lemma acquire_PT {s : KState} {p : Nat} {rest : List Nat}
    (hfl : s.pcb_freelist = p :: rest) :
    (acquire_PCB s).1.PT = setPT s.PT p { s.PT p with pstate := .ALIVE } := by
  simp [acquire_PCB, hfl]

lemma acquire_count {s : KState} {p : Nat} {rest : List Nat}
    (hfl : s.pcb_freelist = p :: rest) :
    (acquire_PCB s).1.process_count = (s.process_count + 1) % UINT_MOD := by
  simp [acquire_PCB, hfl]

lemma acquire_freelist {s : KState} {p : Nat} {rest : List Nat}
    (hfl : s.pcb_freelist = p :: rest) :
    (acquire_PCB s).1.pcb_freelist = rest := by
  simp [acquire_PCB, hfl]

lemma acquire_ret {s : KState} {p : Nat} {rest : List Nat}
    (hfl : s.pcb_freelist = p :: rest) : (acquire_PCB s).2 = some p := by
  simp [acquire_PCB, hfl]

lemma acquire_nil {s : KState} (hfl : s.pcb_freelist = []) :
    acquire_PCB s = (s, none) := by
  simp [acquire_PCB, hfl]

lemma release_PT (s : KState) (p : Nat) :
    (release_PCB s p).PT = setPT s.PT p { s.PT p with pstate := .FREE, parent := none } :=
  rfl

lemma release_count (s : KState) (p : Nat) :
    (release_PCB s p).process_count = (s.process_count + (UINT_MOD - 1)) % UINT_MOD :=
  rfl

lemma release_freelist (s : KState) (p : Nat) :
    (release_PCB s p).pcb_freelist = p :: s.pcb_freelist :=
  rfl

lemma acquire_countNonFree {N : Nat} {s : KState} {p : Nat} {rest : List Nat}
    (hfl : s.pcb_freelist = p :: rest) (hp : p < N)
    (hfree : (s.PT p).pstate = .FREE) :
    countNonFree (acquire_PCB s).1.PT N = countNonFree s.PT N + 1 := by
  rw [acquire_PT hfl]
  exact countNonFree_setPT_flip_on hp hfree (by simp)

lemma release_countNonFree {N : Nat} {s : KState} {p : Nat} (hp : p < N)
    (hps : (s.PT p).pstate ≠ .FREE) :
    countNonFree (release_PCB s p).PT N = countNonFree s.PT N - 1 := by
  rw [release_PT]
  exact countNonFree_setPT_flip_off hp hps (by simp)

/-- Non-allocator fields do not matter to `INV`. -/
lemma INV_of_fields {N : Nat} {s s' : KState} (h : INV N s)
    (hPT : s'.PT = s.PT) (hc : s'.process_count = s.process_count)
    (hf : s'.pcb_freelist = s.pcb_freelist) : INV N s' := by
  unfold INV at h ⊢
  rw [hPT, hc, hf]
  exact h

/-- A table update that does not change any slot's state preserves the
allocator invariant. -/
lemma INV_updPT {N : Nat} {s : KState} {p : Nat} {g : PCB → PCB} (h : INV N s)
    (hg : (g (s.PT p)).pstate = (s.PT p).pstate) : INV N (updPT s p g) := by
  obtain ⟨h1, h2, h3, h4⟩ := h
  refine ⟨?_, ?_, h3, ?_⟩
  · show s.process_count = countNonFree (setPT s.PT p (g (s.PT p))) N
    rw [countNonFree_setPT_same hg]
    exact h1
  · intro q hq
    refine ⟨(h2 q hq).1, ?_⟩
    rw [show ((updPT s p g).PT q).pstate = (s.PT q).pstate from updPT_pstate_eq hg q]
    exact (h2 q hq).2
  · intro q hq hqs
    rw [show ((updPT s p g).PT q).pstate = (s.PT q).pstate from updPT_pstate_eq hg q] at hqs
    exact h4 q hq hqs

lemma INV_acquire {N : Nat} {s : KState} (hN : N < UINT_MOD) (h : INV N s) :
    INV N (acquire_PCB s).1 := by
  obtain ⟨h1, h2, h3, h4⟩ := h
  cases hfl : s.pcb_freelist with
  | nil =>
      rw [acquire_nil hfl]
      exact ⟨h1, by rw [hfl] at h2 ⊢; exact h2, by rw [hfl] at h3 ⊢; exact h3,
        by rw [hfl] at h4 ⊢; exact h4⟩
  | cons p rest =>
      have hp := h2 p (by rw [hfl]; exact List.mem_cons_self p rest)
      have hcnt := acquire_countNonFree hfl hp.1 hp.2
      have hle : countNonFree (acquire_PCB s).1.PT N ≤ N := countNonFree_le _ N
      have hnodup : rest.Nodup ∧ p ∉ rest := by
        rw [hfl] at h3
        exact ⟨(List.nodup_cons.mp h3).2, (List.nodup_cons.mp h3).1⟩
      have hPTne : ∀ q, q ≠ p → (acquire_PCB s).1.PT q = s.PT q := by
        intro q hq
        rw [acquire_PT hfl]
        exact setPT_ne _ _ _ hq
      have hPTp : ((acquire_PCB s).1.PT p).pstate = .ALIVE := by
        rw [acquire_PT hfl, setPT_same]
      refine ⟨?_, ?_, ?_, ?_⟩
      · rw [acquire_count hfl, h1, hcnt, Nat.mod_eq_of_lt (by omega)]
      · rw [acquire_freelist hfl]
        intro q hq
        have hq2 := h2 q (by rw [hfl]; exact List.mem_cons_of_mem p hq)
        refine ⟨hq2.1, ?_⟩
        rw [hPTne q (fun he => hnodup.2 (he ▸ hq))]
        exact hq2.2
      · rw [acquire_freelist hfl]
        exact hnodup.1
      · rw [acquire_freelist hfl]
        intro q hq hqs
        by_cases hqp : q = p
        · subst hqp
          rw [hPTp] at hqs
          exact absurd hqs (by simp)
        · rw [hPTne q hqp] at hqs
          have hmem := h4 q hq hqs
          rw [hfl] at hmem
          exact (List.mem_cons.mp hmem).resolve_left hqp

lemma INV_release {N : Nat} {s : KState} {p : Nat} (hN : N < UINT_MOD)
    (h : INV N s) (hp : p < N) (hps : (s.PT p).pstate ≠ .FREE) :
    INV N (release_PCB s p) := by
  obtain ⟨h1, h2, h3, h4⟩ := h
  have hpos : 1 ≤ countNonFree s.PT N := countNonFree_pos hp hps
  have hle : countNonFree s.PT N ≤ N := countNonFree_le _ N
  have hcnt := release_countNonFree hp hps
  have hnotmem : p ∉ s.pcb_freelist := fun hmem => hps (h2 p hmem).2
  have hPTne : ∀ q, q ≠ p → (release_PCB s p).PT q = s.PT q := by
    intro q hq
    rw [release_PT]
    exact setPT_ne _ _ _ hq
  have hPTp : ((release_PCB s p).PT p).pstate = .FREE := by
    rw [release_PT, setPT_same]
  refine ⟨?_, ?_, ?_, ?_⟩
  · rw [release_count, h1, mod_sub_one hpos (by omega), hcnt]
  · rw [release_freelist]
    intro q hq
    rcases List.mem_cons.mp hq with hqp | hq2
    · subst hqp
      exact ⟨hp, hPTp⟩
    · refine ⟨(h2 q hq2).1, ?_⟩
      rw [hPTne q (fun he => hnotmem (he ▸ hq2))]
      exact (h2 q hq2).2
  · rw [release_freelist]
    exact List.nodup_cons.mpr ⟨hnotmem, h3⟩
  · rw [release_freelist]
    intro q hq hqs
    by_cases hqp : q = p
    · subst hqp
      exact List.mem_cons_self _ _
    · rw [hPTne q hqp] at hqs
      exact List.mem_cons_of_mem _ (h4 q hq hqs)

lemma INV_cleanup {N : Nat} {s : KState} {c : Nat} {want : Bool}
    (hN : N < UINT_MOD) (h : INV N s) (hc : c < N)
    (hps : (s.PT c).pstate ≠ .FREE) : INV N (cleanup_zombie s c want).1 := by
  unfold cleanup_zombie
  cases hpar : (s.PT c).parent with
  | none => exact INV_release hN h hc hps
  | some par =>
      have hg : ∀ q, ((updPT s par (fun pcb =>
          { pcb with children_list := pcb.children_list.erase c,
                     exited_list := pcb.exited_list.erase c })).PT q).pstate
          = (s.PT q).pstate := updPT_pstate_eq rfl
      refine INV_release hN (INV_updPT h rfl) hc ?_
      rw [hg c]
      exact hps

/- Projection lemmas for `updPT`. -/

lemma updPT_PT_same (s : KState) (p : Nat) (g : PCB → PCB) :
    (updPT s p g).PT p = g (s.PT p) := by
  simp [updPT]

lemma updPT_PT_ne (s : KState) (p : Nat) (g : PCB → PCB) {q : Nat} (h : q ≠ p) :
    (updPT s p g).PT q = s.PT q := by
  simp [updPT, setPT_ne _ _ _ h]

lemma updPT_count (s : KState) (p : Nat) (g : PCB → PCB) :
    (updPT s p g).process_count = s.process_count := rfl

lemma updPT_freelist (s : KState) (p : Nat) (g : PCB → PCB) :
    (updPT s p g).pcb_freelist = s.pcb_freelist := rfl

lemma updPT_refcount (s : KState) (p : Nat) (g : PCB → PCB) :
    (updPT s p g).fcb_refcount = s.fcb_refcount := rfl

lemma updPT_heap (s : KState) (p : Nat) (g : PCB → PCB) :
    (updPT s p g).heap = s.heap := rfl

lemma updPT_next_tcb (s : KState) (p : Nat) (g : PCB → PCB) :
    (updPT s p g).next_tcb = s.next_tcb := rfl

/- `INV` preservation through the pieces of `sys_Exec`, the wait
protocol and the exit-value store. -/

lemma INV_setRefcount {N : Nat} {s : KState} (rc : Nat → Nat) (h : INV N s) :
    INV N (setRefcount s rc) :=
  INV_of_fields h rfl rfl rfl

lemma INV_malloc {N : Nat} {s : KState} (blob : List Int) (h : INV N s) :
    INV N (malloc_copy s blob).1 :=
  INV_of_fields h rfl rfl rfl

lemma INV_bump_next_tcb {N : Nat} {s : KState} (h : INV N s) :
    INV N (bump_next_tcb s) :=
  INV_of_fields h rfl rfl rfl

lemma INV_wakeup {N : Nat} {s : KState} (t : Nat) (h : INV N s) :
    INV N (wakeup s t) :=
  INV_of_fields h rfl rfl rfl

lemma INV_exec_set_parent {N : Nat} {s1 : KState} {MF np cur : Nat}
    (h : INV N s1) : INV N (exec_set_parent MF s1 np cur) := by
  unfold exec_set_parent
  split
  · exact INV_updPT h rfl
  · exact INV_setRefcount _ (INV_updPT (INV_updPT (INV_updPT h rfl) rfl) rfl)

lemma INV_exec_copy_args {N : Nat} {s3 : KState} {argl : Int} {args : Option Nat}
    (h : INV N s3) : INV N (exec_copy_args s3 argl args).1 := by
  unfold exec_copy_args
  cases args with
  | none => exact h
  | some a => exact INV_malloc _ h

lemma INV_exec_spawn {N : Nat} {s5 : KState} {np c : Nat} {argl : Int}
    {args : Option Nat} (h : INV N s5) : INV N (exec_spawn s5 np c argl args).1 := by
  unfold exec_spawn
  exact INV_updPT (INV_bump_next_tcb h) rfl

lemma INV_exec_core {N : Nat} {MF : Nat} {s : KState} {cur : Nat}
    {call : Option Nat} {argl : Int} {args : Option Nat}
    (hN : N < UINT_MOD) (h : INV N s) :
    INV N (sys_Exec_core MF s cur call argl args).1 := by
  have h1 : INV N (acquire_PCB s).1 := INV_acquire hN h
  simp only [sys_Exec_core]
  cases hr : (acquire_PCB s).2 with
  | none => exact h1
  | some np =>
      have h5 : ∀ np2 cur2 : Nat,
          INV N (exec_common MF (acquire_PCB s).1 np2 cur2 call argl args) := by
        intro np2 cur2
        unfold exec_common
        exact INV_updPT (INV_exec_copy_args (INV_updPT (INV_exec_set_parent h1) rfl)) rfl
      cases call with
      | none => exact h5 np cur
      | some c => exact INV_exec_spawn (h5 np cur)

lemma INV_exec {N : Nat} {MF : Nat} {s : KState} {cur : Nat} {call : Option Nat}
    {argl : Int} {args : Option Nat} (hN : N < UINT_MOD) (h : INV N s) :
    INV N (sys_Exec MF s cur call argl args).1 := by
  have hcore : INV N (sys_Exec_core MF s cur call argl args).1 :=
    INV_exec_core hN h
  simp only [sys_Exec]
  cases hw : (sys_Exec_core MF s cur call argl args).2.2 with
  | none => exact hcore
  | some t => exact INV_wakeup t hcore

lemma INV_exit_store {N : Nat} {s : KState} {p : Nat} {v : Int} (h : INV N s) :
    INV N (sys_Exit_store s p v) := by
  unfold sys_Exit_store
  split
  · exact INV_updPT h rfl
  · exact h

lemma INV_wait {N : Nat} {s : KState} {cur : Nat} {cpid : Int} {want : Bool}
    {s' : KState} {r : Int} {st : Option Int} (hN : N < UINT_MOD) (h : INV N s)
    (hhead : ∀ c rest, cpid = NOPROC → (s.PT cur).exited_list = c :: rest → c < N)
    (hret : sys_WaitChild N s cur cpid want = .returns s' r st) : INV N s' := by
  unfold sys_WaitChild at hret
  split at hret
  · -- specific child
    unfold wait_for_specific_child at hret
    split at hret
    · cases hret
      exact h
    · rename_i hrange
      split at hret
      · cases hret
        exact h
      · rename_i hnull
        push_neg at hnull
        have hfree : (s.PT cpid.toNat).pstate ≠ .FREE := by
          intro hf
          exact hnull.1 (by unfold get_pcb; rw [if_pos hf])
        split at hret
        · exact WaitOutcome.noConfusion hret
        · cases hret
          have hlt : cpid.toNat < N := by
            push_neg at hrange
            omega
          exact INV_cleanup hN h hlt hfree
  · -- any child
    rename_i hcp
    have hcpid : cpid = NOPROC := by
      by_contra hne
      exact hcp hne
    unfold wait_for_any_child at hret
    split at hret
    · cases hret
      exact h
    · split at hret
      · exact WaitOutcome.noConfusion hret
      · rename_i c rest hex
        split at hret
        · rename_i hz
          cases hret
          exact INV_cleanup hN h (hhead c rest hcpid hex) (by rw [hz]; simp)
        · exact WaitOutcome.noConfusion hret

/-- The states reachable from the freshly initialized process table by
any sequence of allocator calls (`acquire_PCB`, and `release_PCB` on a
slot that is in use) and of the system calls built on them
(`sys_Exec`, the exit-value store of `sys_Exit`, and any `sys_WaitChild`
evaluation that returns).  The `wait` constructor carries the physical
fact that a PCB linked on an exited-children ring is a table slot
(index below `MAX_PROC`). -/
inductive Reach (N : Nat) : KState → Prop where
  | init : Reach N (initialize_processes N)
  | acq {s : KState} : Reach N s → Reach N (acquire_PCB s).1
  | rel {s : KState} {p : Nat} : Reach N s → p < N →
      (s.PT p).pstate ≠ .FREE → Reach N (release_PCB s p)
  | exec {s : KState} (MF cur : Nat) (call : Option Nat) (argl : Int)
      (args : Option Nat) : Reach N s → Reach N (sys_Exec MF s cur call argl args).1
  | exitv {s : KState} (p : Nat) (v : Int) : Reach N s →
      Reach N (sys_Exit_store s p v)
  | wait {s s' : KState} (cur : Nat) (cpid : Int) (want : Bool) {r : Int}
      {st : Option Int} : Reach N s →
      (∀ c rest, cpid = NOPROC → (s.PT cur).exited_list = c :: rest → c < N) →
      sys_WaitChild N s cur cpid want = .returns s' r st → Reach N s'

lemma INV_initialize (N : Nat) : INV N (initialize_processes N) := by
  refine ⟨?_, ?_, ?_, ?_⟩
  · show 0 = countNonFree (fun _ => {}) N
    induction N with
    | zero => rfl
    | succ n ih => rw [countNonFree_succ]; simpa using ih
  · intro q hq
    exact ⟨List.mem_range.mp hq, rfl⟩
  · exact List.nodup_range N
  · intro q hq _
    exact hq

lemma reach_INV {N : Nat} {s : KState} (hN : N < UINT_MOD) (h : Reach N s) :
    INV N s := by
  induction h with
  | init => exact INV_initialize N
  | acq _ ih => exact INV_acquire hN ih
  | rel _ hp hps ih => exact INV_release hN ih hp hps
  | exec MF cur call argl args _ ih => exact INV_exec hN ih
  | exitv p v _ ih => exact INV_exit_store ih
  | wait cur cpid want _ hhead hret ih => exact INV_wait hN ih hhead hret

/- Return-value and field-preservation bridges. -/

lemma sys_Exec_ret (MF : Nat) (s : KState) (cur : Nat) (call : Option Nat)
    (argl : Int) (args : Option Nat) :
    (sys_Exec MF s cur call argl args).2
      = (sys_Exec_core MF s cur call argl args).2.1 := by
  simp only [sys_Exec]
  cases hw : (sys_Exec_core MF s cur call argl args).2.2 <;> rfl

lemma exec_core_ret_nil {MF : Nat} {s : KState} {cur : Nat} {call : Option Nat}
    {argl : Int} {args : Option Nat} (hfl : s.pcb_freelist = []) :
    (sys_Exec_core MF s cur call argl args).2.1 = NOPROC := by
  simp only [sys_Exec_core, acquire_nil hfl]

lemma exec_core_ret_cons {MF : Nat} {s : KState} {cur np : Nat} {rest : List Nat}
    {call : Option Nat} {argl : Int} {args : Option Nat}
    (hfl : s.pcb_freelist = np :: rest) :
    (sys_Exec_core MF s cur call argl args).2.1 = (np : Int) := by
  simp only [sys_Exec_core, acquire_ret hfl]
  cases call <;> rfl

lemma acquire_refcount (s : KState) :
    (acquire_PCB s).1.fcb_refcount = s.fcb_refcount := by
  cases hfl : s.pcb_freelist <;> simp [acquire_PCB, hfl]

lemma acquire_next_tcb (s : KState) :
    (acquire_PCB s).1.next_tcb = s.next_tcb := by
  cases hfl : s.pcb_freelist <;> simp [acquire_PCB, hfl]

lemma acquire_PT_fidt (s : KState) (q : Nat) :
    ((acquire_PCB s).1.PT q).fidt = (s.PT q).fidt := by
  cases hfl : s.pcb_freelist with
  | nil => rw [acquire_nil hfl]
  | cons p rest =>
      rw [acquire_PT hfl]
      by_cases h : q = p
      · subst h
        rw [setPT_same]
      · rw [setPT_ne _ _ _ h]

lemma release_PT_fidt (s : KState) (p q : Nat) :
    ((release_PCB s p).PT q).fidt = (s.PT q).fidt := by
  rw [release_PT]
  by_cases h : q = p
  · subst h
    rw [setPT_same]
  · rw [setPT_ne _ _ _ h]

lemma release_PT_children (s : KState) (p q : Nat) :
    ((release_PCB s p).PT q).children_list = (s.PT q).children_list := by
  rw [release_PT]
  by_cases h : q = p
  · subst h
    rw [setPT_same]
  · rw [setPT_ne _ _ _ h]

lemma release_PT_exited (s : KState) (p q : Nat) :
    ((release_PCB s p).PT q).exited_list = (s.PT q).exited_list := by
  rw [release_PT]
  by_cases h : q = p
  · subst h
    rw [setPT_same]
  · rw [setPT_ne _ _ _ h]

lemma release_PT_pstate (s : KState) (p : Nat) :
    ((release_PCB s p).PT p).pstate = .FREE := by
  rw [release_PT, setPT_same]

lemma updPT_fidt {s : KState} {p : Nat} {g : PCB → PCB}
    (hg : (g (s.PT p)).fidt = (s.PT p).fidt) (q : Nat) :
    ((updPT s p g).PT q).fidt = (s.PT q).fidt := by
  by_cases h : q = p
  · subst h
    rw [updPT_PT_same]
    exact hg
  · rw [updPT_PT_ne _ _ _ h]

lemma exit_store_PT_fidt (s : KState) (p : Nat) (v : Int) (q : Nat) :
    ((sys_Exit_store s p v).PT q).fidt = (s.PT q).fidt := by
  unfold sys_Exit_store
  split
  · exact updPT_fidt rfl q
  · rfl

lemma cleanup_PT_fidt (s : KState) (c : Nat) (want : Bool) (q : Nat) :
    ((cleanup_zombie s c want).1.PT q).fidt = (s.PT q).fidt := by
  unfold cleanup_zombie
  cases hpar : (s.PT c).parent with
  | none => exact release_PT_fidt _ _ _
  | some par =>
      rw [release_PT_fidt]
      exact updPT_fidt rfl q

lemma wait_PT_fidt {N : Nat} {s : KState} {cur : Nat} {cpid : Int}
    {want : Bool} {s2 : KState} {r : Int} {st : Option Int}
    (hret : sys_WaitChild N s cur cpid want = .returns s2 r st) (q : Nat) :
    (s2.PT q).fidt = (s.PT q).fidt := by
  unfold sys_WaitChild at hret
  split at hret
  · unfold wait_for_specific_child at hret
    split at hret
    · cases hret
      rfl
    · split at hret
      · cases hret
        rfl
      · split at hret
        · exact WaitOutcome.noConfusion hret
        · cases hret
          exact cleanup_PT_fidt _ _ _ q
  · unfold wait_for_any_child at hret
    split at hret
    · cases hret
      rfl
    · split at hret
      · exact WaitOutcome.noConfusion hret
      · split at hret
        · cases hret
          exact cleanup_PT_fidt _ _ _ q
        · exact WaitOutcome.noConfusion hret

/-!  Claim theorems. -/

/-- C1: along every sequence of `acquire_PCB`/`release_PCB` calls (and
of the `sys_Exec`/`sys_Exit`/`sys_WaitChild` calls built on them)
starting from the initialized table, the global `process_count` equals
the number of process-table slots whose state is not FREE:
`acquire_PCB` increments it exactly when it pops a slot off the free
list and marks it ALIVE, and `release_PCB` decrements it exactly when
it marks a slot FREE and pushes it back. -/
theorem c1_process_count_eq_countNonFree {N : Nat} {s : KState}
    (hN : N < UINT_MOD) (h : Reach N s) :
    s.process_count = countNonFree s.PT N :=
  (reach_INV hN h).1

theorem c1_process_count_eq_countNonFree_witness :
    3 < UINT_MOD ∧
      (acquire_PCB (initialize_processes 3)).1.process_count
        = countNonFree (acquire_PCB (initialize_processes 3)).1.PT 3 :=
  ⟨by rw [UINT_MOD_eq]; omega,
   c1_process_count_eq_countNonFree (by rw [UINT_MOD_eq]; omega)
     (Reach.acq Reach.init)⟩

/-- C6: the exit-value store of `sys_Exit` with a zero value leaves the
state (in particular the recorded `exitval`) unchanged, while a
non-zero value always overwrites `exitval`. -/
theorem c6_exit_store_zero_keeps {s : KState} {p : Nat} {v : Int} :
    (v = 0 → sys_Exit_store s p v = s)
    ∧ (v ≠ 0 → ((sys_Exit_store s p v).PT p).exitval = v) := by
  constructor
  · intro hv
    subst hv
    simp [sys_Exit_store]
  · intro hv
    unfold sys_Exit_store
    rw [if_pos hv, updPT_PT_same]

/-- Sample state for the C6 witness: slot 0 has recorded exit value 7. -/
def exitSample : KState :=
  { PT := fun p => if p = 0 then { pstate := .ALIVE, exitval := 7 } else {} }

theorem c6_exit_store_zero_keeps_witness :
    (sys_Exit_store exitSample 0 0 = exitSample
      ∧ ((sys_Exit_store exitSample 0 0).PT 0).exitval = 7)
    ∧ ((sys_Exit_store exitSample 0 5).PT 0).exitval = 5 :=
  ⟨⟨(c6_exit_store_zero_keeps).1 rfl,
    by rw [(c6_exit_store_zero_keeps).1 rfl]; decide⟩,
   (c6_exit_store_zero_keeps).2 (by decide)⟩

/-- C8: `sys_GetPPid` returns the parent's PID, and the NOPROC sentinel
(`get_pid(NULL)`) when the calling process has no parent. -/
theorem c8_getppid {s : KState} {cur : Nat} :
    ((s.PT cur).parent = none → sys_GetPPid s cur = NOPROC)
    ∧ (∀ q : Nat, (s.PT cur).parent = some q → sys_GetPPid s cur = (q : Int)) := by
  constructor
  · intro h
    simp [sys_GetPPid, h, get_pid]
  · intro q h
    simp [sys_GetPPid, h, get_pid]

/-- Sample state for the C8 witness: slot 0 parentless, slot 2 a child
of slot 0. -/
def ppidSample : KState :=
  { PT := fun p =>
      if p = 0 then { pstate := .ALIVE }
      else if p = 2 then { pstate := .ALIVE, parent := some 0 } else {} }

theorem c8_getppid_witness :
    sys_GetPPid ppidSample 0 = NOPROC ∧ sys_GetPPid ppidSample 2 = 0 :=
  ⟨(c8_getppid).1 (by decide), (c8_getppid).2 0 (by decide)⟩

/-- C10: the free list is LIFO: `release_PCB p` immediately followed by
`acquire_PCB` returns exactly `p`, with `p` marked ALIVE again,
`process_count` and the free list restored to their values before the
release — and a `sys_Exec` run right after the release reuses exactly
PID `p`. -/
theorem c10_release_acquire_lifo {s : KState} {p : Nat} {MF cur : Nat}
    {call : Option Nat} {argl : Int} {args : Option Nat}
    (hc : s.process_count < UINT_MOD) :
    (acquire_PCB (release_PCB s p)).2 = some p
    ∧ ((acquire_PCB (release_PCB s p)).1.PT p).pstate = .ALIVE
    ∧ (acquire_PCB (release_PCB s p)).1.process_count = s.process_count
    ∧ (acquire_PCB (release_PCB s p)).1.pcb_freelist = s.pcb_freelist
    ∧ (sys_Exec MF (release_PCB s p) cur call argl args).2 = (p : Int) := by
  have hfl : (release_PCB s p).pcb_freelist = p :: s.pcb_freelist :=
    release_freelist s p
  refine ⟨acquire_ret hfl, ?_, ?_, acquire_freelist hfl, ?_⟩
  · rw [acquire_PT hfl, setPT_same]
  · rw [acquire_count hfl, release_count, mod_roundtrip hc]
  · rw [sys_Exec_ret, exec_core_ret_cons hfl]

/-- Sample state for the C10 witness: slot 0 in use, slot 1 free. -/
def lifoSample : KState :=
  { PT := fun p => if p = 0 then { pstate := .ALIVE } else {},
    process_count := 1, pcb_freelist := [1] }

theorem c10_release_acquire_lifo_witness :
    lifoSample.process_count < UINT_MOD
    ∧ (acquire_PCB (release_PCB lifoSample 0)).2 = some 0
    ∧ ((acquire_PCB (release_PCB lifoSample 0)).1.PT 0).pstate = .ALIVE
    ∧ (acquire_PCB (release_PCB lifoSample 0)).1.process_count
        = lifoSample.process_count
    ∧ (acquire_PCB (release_PCB lifoSample 0)).1.pcb_freelist
        = lifoSample.pcb_freelist
    ∧ (sys_Exec 16 (release_PCB lifoSample 0) 0 none 0 none).2 = ((0 : Nat) : Int) :=
  ⟨by decide, c10_release_acquire_lifo (by decide)⟩

/-- C2: `sys_Exec` returns the NOPROC sentinel iff the free list is
empty, and under the allocator invariant the free list is empty iff
every one of the `MAX_PROC` slots is non-FREE — so with the table at
capacity the next creation attempt fails, and table exhaustion is the
only failure mode of `sys_Exec`. -/
theorem c2_exec_noproc_iff {N MF : Nat} {s : KState} {cur : Nat}
    {call : Option Nat} {argl : Int} {args : Option Nat} (hInv : INV N s) :
    ((sys_Exec MF s cur call argl args).2 = NOPROC ↔ s.pcb_freelist = [])
    ∧ (s.pcb_freelist = [] ↔ ∀ q ∈ List.range N, (s.PT q).pstate ≠ .FREE) := by
  obtain ⟨h1, h2, h3, h4⟩ := hInv
  constructor
  · cases hfl : s.pcb_freelist with
    | nil =>
        constructor
        · intro _
          rfl
        · intro _
          rw [sys_Exec_ret, exec_core_ret_nil hfl]
    | cons p rest =>
        constructor
        · intro hr
          rw [sys_Exec_ret, exec_core_ret_cons hfl] at hr
          simp only [NOPROC] at hr
          omega
        · intro he
          exact absurd he (by simp)
  · constructor
    · intro hfl q hq hf
      have hmem := h4 q hq hf
      rw [hfl] at hmem
      exact absurd hmem (List.not_mem_nil q)
    · intro hall
      cases hfl : s.pcb_freelist with
      | nil => rfl
      | cons p rest =>
          have hp := h2 p (by rw [hfl]; exact List.mem_cons_self p rest)
          exact absurd hp.2 (hall p (List.mem_range.mpr hp.1))

/-- Sample state for the C2 witness: a capacity-2 table with both slots
in use and an empty free list. -/
def fullSample : KState :=
  { PT := fun p => if p < 2 then { pstate := .ALIVE } else {},
    process_count := 2, pcb_freelist := [] }

theorem c2_exec_noproc_iff_witness :
    INV 2 fullSample
    ∧ ((sys_Exec 16 fullSample 0 none 0 none).2 = NOPROC
        ↔ fullSample.pcb_freelist = [])
    ∧ (fullSample.pcb_freelist = []
        ↔ ∀ q ∈ List.range 2, (fullSample.PT q).pstate ≠ .FREE) :=
  ⟨by decide, c2_exec_noproc_iff (by decide)⟩

lemma get_pcb_eq_none {s : KState} {c : Nat} :
    get_pcb s c = none ↔ (s.PT c).pstate = .FREE := by
  unfold get_pcb
  split
  · rename_i h
    simp [h]
  · rename_i h
    simp [h]

/-- C3: `sys_WaitChild` returns NOPROC immediately — without ever
blocking, with the process table unchanged and no status written — in
exactly these cases: specific mode with the requested PID outside
[0, MAX_PROC), or naming a FREE slot, or naming a process whose parent
is not the caller; and any-child mode when the caller's children list
is empty. -/
theorem c3_waitchild_noproc_exactly {N : Nat} {s : KState} {cur : Nat}
    {cpid : Int} {want : Bool} :
    (∀ s2 st, sys_WaitChild N s cur cpid want = .returns s2 NOPROC st →
        s2 = s ∧ st = none
          ∧ ((cpid ≠ NOPROC ∧ (cpid < 0 ∨ (N : Int) ≤ cpid
                ∨ (s.PT cpid.toNat).pstate = .FREE
                ∨ (s.PT cpid.toNat).parent ≠ some cur))
              ∨ (cpid = NOPROC ∧ (s.PT cur).children_list = [])))
    ∧ (((cpid ≠ NOPROC ∧ (cpid < 0 ∨ (N : Int) ≤ cpid
          ∨ (s.PT cpid.toNat).pstate = .FREE
          ∨ (s.PT cpid.toNat).parent ≠ some cur))
        ∨ (cpid = NOPROC ∧ (s.PT cur).children_list = [])) →
        sys_WaitChild N s cur cpid want = .returns s NOPROC none) := by
  constructor
  · intro s2 st hret
    unfold sys_WaitChild at hret
    split at hret
    case isTrue hcp =>
      unfold wait_for_specific_child at hret
      split at hret
      case isTrue hr =>
        injection hret with h1 h2 h3
        subst h1
        subst h3
        exact ⟨rfl, rfl, Or.inl ⟨hcp, by tauto⟩⟩
      case isFalse hr =>
        split at hret
        case isTrue hn =>
          injection hret with h1 h2 h3
          subst h1
          subst h3
          refine ⟨rfl, rfl, Or.inl ⟨hcp, ?_⟩⟩
          rcases hn with hn | hn
          · exact Or.inr (Or.inr (Or.inl (get_pcb_eq_none.mp hn)))
          · exact Or.inr (Or.inr (Or.inr hn))
        case isFalse hn =>
          split at hret
          · exact WaitOutcome.noConfusion hret
          · injection hret with h1 h2 h3
            exact absurd h2 hcp
    case isFalse hcp =>
      have hcpid : cpid = NOPROC := not_not.mp hcp
      unfold wait_for_any_child at hret
      split at hret
      case isTrue hch =>
        injection hret with h1 h2 h3
        subst h1
        subst h3
        exact ⟨rfl, rfl, Or.inr ⟨hcpid, hch⟩⟩
      case isFalse hch =>
        split at hret
        · exact WaitOutcome.noConfusion hret
        · split at hret
          · injection hret with h1 h2 h3
            exact absurd h2 (by simp only [NOPROC]; omega)
          · exact WaitOutcome.noConfusion hret
  · intro hcond
    rcases hcond with ⟨hcp, hor⟩ | ⟨hcpid, hch⟩
    · unfold sys_WaitChild
      rw [if_pos hcp]
      unfold wait_for_specific_child
      by_cases hr : cpid < 0 ∨ (N : Int) ≤ cpid
      · rw [if_pos hr]
      · rw [if_neg hr]
        have hn : get_pcb s cpid.toNat = none
            ∨ (s.PT cpid.toNat).parent ≠ some cur := by
          rcases hor with h | h | h | h
          · exact absurd (Or.inl h) hr
          · exact absurd (Or.inr h) hr
          · exact Or.inl (get_pcb_eq_none.mpr h)
          · exact Or.inr h
        rw [if_pos hn]
    · unfold sys_WaitChild
      rw [if_neg (fun h => h hcpid)]
      unfold wait_for_any_child
      rw [if_pos hch]

/-- Sample state for the C3 witness: slot 0 has one (still running)
child, slot 1; slot 1 has no children; slot 2 is FREE. -/
def waitSample : KState :=
  { PT := fun p =>
      if p = 0 then { pstate := .ALIVE, children_list := [1] }
      else if p = 1 then { pstate := .ALIVE, parent := some 0 } else {},
    process_count := 2, pcb_freelist := [2] }

theorem c3_waitchild_noproc_exactly_witness :
    sys_WaitChild 3 waitSample 1 NOPROC true = .returns waitSample NOPROC none
    ∧ sys_WaitChild 3 waitSample 0 2 true = .returns waitSample NOPROC none :=
  ⟨(c3_waitchild_noproc_exactly).2 (Or.inr ⟨rfl, by decide⟩),
   (c3_waitchild_noproc_exactly).2
     (Or.inl ⟨by decide, Or.inr (Or.inr (Or.inl (by decide)))⟩)⟩

/-- C4: a successful any-child wait reclaims exactly the head — the
oldest-arrived element, since exiting children are appended at the back
— of the caller's `exited_children` list: it copies that child's exit
value through the status pointer when one was passed, unlinks the
child from both the caller's children and exited lists, releases its
slot back onto the free list with state FREE, and returns that child's
PID. -/
theorem c4_waitchild_any_fifo {N : Nat} {s : KState} {cur : Nat} {want : Bool}
    {c : Nat} {rest : List Nat}
    (hch : ¬ (s.PT cur).children_list = [])
    (hex : (s.PT cur).exited_list = c :: rest)
    (hz : (s.PT c).pstate = .ZOMBIE)
    (hpar : (s.PT c).parent = some cur) :
    sys_WaitChild N s cur NOPROC want
      = .returns (cleanup_zombie s c want).1 (c : Int) (cleanup_zombie s c want).2
    ∧ (cleanup_zombie s c want).2
        = (if want then some ((s.PT c).exitval) else none)
    ∧ ((cleanup_zombie s c want).1.PT c).pstate = .FREE
    ∧ (cleanup_zombie s c want).1.pcb_freelist = c :: s.pcb_freelist
    ∧ ((cleanup_zombie s c want).1.PT cur).exited_list = rest
    ∧ ((cleanup_zombie s c want).1.PT cur).children_list
        = (s.PT cur).children_list.erase c := by
  have hclean : (cleanup_zombie s c want).1
      = release_PCB (updPT s cur (fun pcb =>
          { pcb with children_list := pcb.children_list.erase c,
                     exited_list := pcb.exited_list.erase c })) c := by
    simp only [cleanup_zombie, hpar]
  refine ⟨?_, rfl, ?_, ?_, ?_, ?_⟩
  · have h0 : ¬(NOPROC ≠ NOPROC) := fun h => h rfl
    simp only [sys_WaitChild, if_neg h0]
    simp only [wait_for_any_child, if_neg hch, hex, if_pos hz]
  · rw [hclean, release_PT_pstate]
  · rw [hclean, release_freelist, updPT_freelist]
  · rw [hclean, release_PT_exited, updPT_PT_same]
    show ((s.PT cur).exited_list).erase c = rest
    rw [hex]
    exact List.erase_cons_head c rest
  · rw [hclean, release_PT_children, updPT_PT_same]

/-- Sample state for the C4 witness: slot 0 has the single child 1,
already a zombie with exit value 42, queued on its exited list. -/
def fifoSample : KState :=
  { PT := fun p =>
      if p = 0 then { pstate := .ALIVE, children_list := [1], exited_list := [1] }
      else if p = 1 then { pstate := .ZOMBIE, parent := some 0, exitval := 42 }
      else {},
    process_count := 2, pcb_freelist := [2] }

theorem c4_waitchild_any_fifo_witness :
    (¬ (fifoSample.PT 0).children_list = []
      ∧ (fifoSample.PT 0).exited_list = 1 :: []
      ∧ (fifoSample.PT 1).pstate = .ZOMBIE
      ∧ (fifoSample.PT 1).parent = some 0)
    ∧ (sys_WaitChild 3 fifoSample 0 NOPROC true
        = .returns (cleanup_zombie fifoSample 1 true).1 ((1 : Nat) : Int)
            (cleanup_zombie fifoSample 1 true).2
      ∧ (cleanup_zombie fifoSample 1 true).2
          = (if true then some ((fifoSample.PT 1).exitval) else none)
      ∧ ((cleanup_zombie fifoSample 1 true).1.PT 1).pstate = .FREE
      ∧ (cleanup_zombie fifoSample 1 true).1.pcb_freelist
          = 1 :: fifoSample.pcb_freelist
      ∧ ((cleanup_zombie fifoSample 1 true).1.PT 0).exited_list = []
      ∧ ((cleanup_zombie fifoSample 1 true).1.PT 0).children_list
          = (fifoSample.PT 0).children_list.erase 1) :=
  ⟨⟨by decide, by decide, by decide, by decide⟩,
   c4_waitchild_any_fifo (by decide) (by decide) (by decide) (by decide)⟩

/- Field tracing through the pieces of `sys_Exec`. -/

lemma setRefcount_PT (s : KState) (rc : Nat → Nat) :
    (setRefcount s rc).PT = s.PT := rfl

lemma setRefcount_refcount (s : KState) (rc : Nat → Nat) :
    (setRefcount s rc).fcb_refcount = rc := rfl

lemma wakeup_PT (s : KState) (t : Nat) : (wakeup s t).PT = s.PT := rfl

lemma wakeup_refcount (s : KState) (t : Nat) :
    (wakeup s t).fcb_refcount = s.fcb_refcount := rfl

lemma wakeup_runnable (s : KState) (t : Nat) :
    (wakeup s t).runnable = s.runnable ++ [t] := rfl

lemma exec_copy_args_PT (s3 : KState) (argl : Int) (args : Option Nat) :
    (exec_copy_args s3 argl args).1.PT = s3.PT := by
  cases args <;> rfl

lemma exec_copy_args_refcount (s3 : KState) (argl : Int) (args : Option Nat) :
    (exec_copy_args s3 argl args).1.fcb_refcount = s3.fcb_refcount := by
  cases args <;> rfl

lemma exec_copy_args_next_tcb (s3 : KState) (argl : Int) (args : Option Nat) :
    (exec_copy_args s3 argl args).1.next_tcb = s3.next_tcb := by
  cases args <;> rfl

lemma updPT_ptcb {s : KState} {p : Nat} {g : PCB → PCB}
    (hg : (g (s.PT p)).ptcb_list = (s.PT p).ptcb_list) (q : Nat) :
    ((updPT s p g).PT q).ptcb_list = (s.PT q).ptcb_list := by
  by_cases h : q = p
  · subst h
    rw [updPT_PT_same]
    exact hg
  · rw [updPT_PT_ne _ _ _ h]

lemma acquire_PT_ptcb (s : KState) (q : Nat) :
    ((acquire_PCB s).1.PT q).ptcb_list = (s.PT q).ptcb_list := by
  cases hfl : s.pcb_freelist with
  | nil => rw [acquire_nil hfl]
  | cons p rest =>
      rw [acquire_PT hfl]
      by_cases h : q = p
      · subst h
        rw [setPT_same]
      · rw [setPT_ne _ _ _ h]

lemma exec_set_parent_PT_ptcb (MF : Nat) (s1 : KState) (np cur : Nat) (q : Nat) :
    ((exec_set_parent MF s1 np cur).PT q).ptcb_list = (s1.PT q).ptcb_list := by
  unfold exec_set_parent
  split
  · exact updPT_ptcb rfl q
  · rw [setRefcount_PT]
    rw [updPT_ptcb rfl q, updPT_ptcb rfl q, updPT_ptcb rfl q]

lemma exec_set_parent_next_tcb (MF : Nat) (s1 : KState) (np cur : Nat) :
    (exec_set_parent MF s1 np cur).next_tcb = s1.next_tcb := by
  unfold exec_set_parent
  split <;> rfl

lemma exec_common_next_tcb (MF : Nat) (s1 : KState) (np cur : Nat)
    (call : Option Nat) (argl : Int) (args : Option Nat) :
    (exec_common MF s1 np cur call argl args).next_tcb = s1.next_tcb := by
  unfold exec_common
  show (exec_copy_args _ argl args).1.next_tcb = s1.next_tcb
  rw [exec_copy_args_next_tcb]
  exact exec_set_parent_next_tcb MF s1 np cur

lemma exec_common_PT_fidt (MF : Nat) (s1 : KState) (np cur : Nat)
    (call : Option Nat) (argl : Int) (args : Option Nat) (q : Nat) :
    ((exec_common MF s1 np cur call argl args).PT q).fidt
      = ((exec_set_parent MF s1 np cur).PT q).fidt := by
  unfold exec_common
  rw [updPT_fidt rfl q]
  rw [show ((exec_copy_args (updPT (exec_set_parent MF s1 np cur) np
      (fun pcb => { pcb with main_task := call })) argl args).1.PT q)
      = ((updPT (exec_set_parent MF s1 np cur) np
          (fun pcb => { pcb with main_task := call })).PT q) by rw [exec_copy_args_PT]]
  rw [updPT_fidt rfl q]

lemma exec_common_refcount (MF : Nat) (s1 : KState) (np cur : Nat)
    (call : Option Nat) (argl : Int) (args : Option Nat) :
    (exec_common MF s1 np cur call argl args).fcb_refcount
      = (exec_set_parent MF s1 np cur).fcb_refcount := by
  unfold exec_common
  show (exec_copy_args _ argl args).1.fcb_refcount = _
  rw [exec_copy_args_refcount]
  rfl

lemma exec_common_PT_ptcb (MF : Nat) (s1 : KState) (np cur : Nat)
    (call : Option Nat) (argl : Int) (args : Option Nat) (q : Nat) :
    ((exec_common MF s1 np cur call argl args).PT q).ptcb_list
      = (s1.PT q).ptcb_list := by
  unfold exec_common
  rw [updPT_ptcb rfl q]
  rw [show ((exec_copy_args (updPT (exec_set_parent MF s1 np cur) np
      (fun pcb => { pcb with main_task := call })) argl args).1.PT q)
      = ((updPT (exec_set_parent MF s1 np cur) np
          (fun pcb => { pcb with main_task := call })).PT q) by rw [exec_copy_args_PT]]
  rw [updPT_ptcb rfl q]
  exact exec_set_parent_PT_ptcb MF s1 np cur q

lemma exec_set_parent_fidt_np {MF : Nat} {s1 : KState} {np cur : Nat}
    (hnp : ¬ np ≤ 1) (hcur : cur ≠ np) {i : Nat} (hi : i < MF) :
    ((exec_set_parent MF s1 np cur).PT np).fidt i = (s1.PT cur).fidt i := by
  simp only [exec_set_parent, if_neg hnp, setRefcount_PT, updPT_PT_same]
  simp only [if_pos hi, updPT_PT_same]
  simp only [updPT_PT_ne _ _ _ hcur]

lemma exec_set_parent_fidt_other {MF : Nat} {s1 : KState} {np cur : Nat}
    (hnp : ¬ np ≤ 1) {q : Nat} (hq : q ≠ np) :
    ((exec_set_parent MF s1 np cur).PT q).fidt = (s1.PT q).fidt := by
  simp only [exec_set_parent, if_neg hnp, setRefcount_PT]
  rw [updPT_PT_ne _ _ _ hq, updPT_fidt rfl q, updPT_fidt rfl q]

lemma exec_set_parent_refcount_np {MF : Nat} {s1 : KState} {np cur : Nat}
    (hnp : ¬ np ≤ 1) (hcur : cur ≠ np) (g : Nat) :
    (exec_set_parent MF s1 np cur).fcb_refcount g
      = s1.fcb_refcount g
        + (List.range MF).countP (fun i => (s1.PT cur).fidt i == some g) := by
  simp only [exec_set_parent, if_neg hnp, setRefcount_refcount]
  rw [increfs_count]
  simp only [updPT_refcount, updPT_PT_same, updPT_PT_ne _ _ _ hcur]

lemma exec_set_parent_orphan_fidt {MF : Nat} {s1 : KState} {np cur : Nat}
    (hnp : np ≤ 1) (q : Nat) :
    ((exec_set_parent MF s1 np cur).PT q).fidt = (s1.PT q).fidt := by
  simp only [exec_set_parent, if_pos hnp]
  exact updPT_fidt rfl q

lemma exec_set_parent_orphan_refcount {MF : Nat} {s1 : KState} {np cur : Nat}
    (hnp : np ≤ 1) :
    (exec_set_parent MF s1 np cur).fcb_refcount = s1.fcb_refcount := by
  simp only [exec_set_parent, if_pos hnp]
  rfl

lemma exec_final_PT_fidt {MF : Nat} {s : KState} {cur np : Nat} {rest : List Nat}
    {call : Option Nat} {argl : Int} {args : Option Nat}
    (hfl : s.pcb_freelist = np :: rest) (q : Nat) :
    ((sys_Exec MF s cur call argl args).1.PT q).fidt
      = ((exec_common MF (acquire_PCB s).1 np cur call argl args).PT q).fidt := by
  cases call with
  | none =>
      simp only [sys_Exec, sys_Exec_core, acquire_ret hfl]
  | some c =>
      simp only [sys_Exec, sys_Exec_core, acquire_ret hfl, wakeup_PT]
      unfold exec_spawn
      rw [updPT_fidt rfl q]
      rfl

lemma exec_final_refcount {MF : Nat} {s : KState} {cur np : Nat} {rest : List Nat}
    {call : Option Nat} {argl : Int} {args : Option Nat}
    (hfl : s.pcb_freelist = np :: rest) :
    (sys_Exec MF s cur call argl args).1.fcb_refcount
      = (exec_common MF (acquire_PCB s).1 np cur call argl args).fcb_refcount := by
  cases call with
  | none =>
      simp only [sys_Exec, sys_Exec_core, acquire_ret hfl]
  | some c =>
      simp only [sys_Exec, sys_Exec_core, acquire_ret hfl, wakeup_refcount]
      rfl

/-- Sample state for the C5 counterexample: slot 1 is the only free
slot, and the caller (PID 2) holds an open handle at index 0. -/
def orphanSample : KState :=
  { PT := fun p =>
      if p = 2 then { pstate := .ALIVE, fidt := fun i => if i = 0 then some 7 else none }
      else {},
    process_count := 1, pcb_freelist := [1],
    fcb_refcount := fun f => if f = 7 then 1 else 0 }

/-- C5 (counterexample): with slot 1 free and the caller being PID 2,
`sys_Exec` succeeds and hands out PID 1, and the `get_pid(newproc) <= 1`
guard skips handle inheritance even though the *caller* is neither
PID 0 nor 1: the child's handle-table entry 0 differs from the
caller's, and no reference count is incremented.  The claim's condition
on the caller's PID is refuted; the code conditions on the new PID. -/
theorem c5_caller_not_orphan_counterexample :
    (sys_Exec 16 orphanSample 2 none 0 none).2 = 1
    ∧ ((2 : Nat) ≠ 0 ∧ (2 : Nat) ≠ 1)
    ∧ (sys_Exec 16 orphanSample 2 none 0 none).2 ≠ NOPROC
    ∧ ((sys_Exec 16 orphanSample 2 none 0 none).1.PT 1).fidt 0
        ≠ ((sys_Exec 16 orphanSample 2 none 0 none).1.PT 2).fidt 0
    ∧ (sys_Exec 16 orphanSample 2 none 0 none).1.fcb_refcount 7
        = orphanSample.fcb_refcount 7 := by
  decide

/-- C5 (amended): when `sys_Exec` hands out a slot whose PID is ≥ 2,
the child's handle table equals the caller's at every index below
`MAX_FILEID`, the caller's own table is untouched, and each handle's
reference count grows by the number of caller table entries holding it
(so a handle held at exactly one index is incremented exactly once);
when the new PID is 0 or 1 no handle is inherited and no reference
count changes; and no other operation of this module — `acquire_PCB`,
`release_PCB`, the exit-value store, or any returning `sys_WaitChild` —
ever writes any slot's handle table. -/
theorem c5_exec_inherits_handles {MF : Nat} {s : KState} {cur np : Nat}
    {rest : List Nat} {call : Option Nat} {argl : Int} {args : Option Nat}
    (hfl : s.pcb_freelist = np :: rest) :
    (sys_Exec MF s cur call argl args).2 = (np : Int)
    ∧ (¬ np ≤ 1 → cur ≠ np →
        (∀ i, i < MF →
          ((sys_Exec MF s cur call argl args).1.PT np).fidt i = (s.PT cur).fidt i
          ∧ ((sys_Exec MF s cur call argl args).1.PT cur).fidt i = (s.PT cur).fidt i)
        ∧ (∀ g, (sys_Exec MF s cur call argl args).1.fcb_refcount g
            = s.fcb_refcount g
              + (List.range MF).countP (fun i => (s.PT cur).fidt i == some g)))
    ∧ (np ≤ 1 →
        (∀ q, ((sys_Exec MF s cur call argl args).1.PT q).fidt = (s.PT q).fidt)
        ∧ (sys_Exec MF s cur call argl args).1.fcb_refcount = s.fcb_refcount)
    ∧ (∀ s2 : KState, ∀ p q : Nat, ((release_PCB s2 p).PT q).fidt = (s2.PT q).fidt)
    ∧ (∀ s2 : KState, ∀ q : Nat, ((acquire_PCB s2).1.PT q).fidt = (s2.PT q).fidt)
    ∧ (∀ s2 : KState, ∀ p : Nat, ∀ v : Int, ∀ q : Nat,
        ((sys_Exit_store s2 p v).PT q).fidt = (s2.PT q).fidt)
    ∧ (∀ N2 : Nat, ∀ s2 : KState, ∀ cur2 : Nat, ∀ cpid2 : Int, ∀ want2 : Bool,
        ∀ s3 : KState, ∀ r2 : Int, ∀ st2 : Option Int,
        sys_WaitChild N2 s2 cur2 cpid2 want2 = WaitOutcome.returns s3 r2 st2 →
        ∀ q : Nat, (s3.PT q).fidt = (s2.PT q).fidt) := by
  refine ⟨?_, ?_, ?_, release_PT_fidt, acquire_PT_fidt, exit_store_PT_fidt,
    fun N2 s2 cur2 cpid2 want2 s3 r2 st2 hret q => wait_PT_fidt hret q⟩
  · rw [sys_Exec_ret, exec_core_ret_cons hfl]
  · intro hnp hcur
    constructor
    · intro i hi
      constructor
      · rw [exec_final_PT_fidt hfl np, exec_common_PT_fidt,
          exec_set_parent_fidt_np hnp hcur hi, acquire_PT_fidt]
      · rw [exec_final_PT_fidt hfl cur, exec_common_PT_fidt,
          exec_set_parent_fidt_other hnp hcur, acquire_PT_fidt]
    · intro g
      rw [exec_final_refcount hfl, exec_common_refcount,
        exec_set_parent_refcount_np hnp hcur g, acquire_refcount, acquire_PT_fidt]
  · intro hnp
    constructor
    · intro q
      rw [exec_final_PT_fidt hfl q, exec_common_PT_fidt,
        exec_set_parent_orphan_fidt hnp q, acquire_PT_fidt]
    · rw [exec_final_refcount hfl, exec_common_refcount,
        exec_set_parent_orphan_refcount hnp, acquire_refcount]

/-- Sample state for the C5 witness: caller PID 0 holds handle 7 at
index 0 and the next free slot is 2. -/
def inheritSample : KState :=
  { PT := fun p =>
      if p = 0 then { pstate := .ALIVE, fidt := fun i => if i = 0 then some 7 else none }
      else {},
    process_count := 1, pcb_freelist := [2, 3],
    fcb_refcount := fun f => if f = 7 then 1 else 0 }

theorem c5_exec_inherits_handles_witness :
    inheritSample.pcb_freelist = 2 :: [3]
    ∧ (sys_Exec 1 inheritSample 0 none 0 none).2 = ((2 : Nat) : Int)
    ∧ ((sys_Exec 1 inheritSample 0 none 0 none).1.PT 2).fidt 0
        = (inheritSample.PT 0).fidt 0
    ∧ (sys_Exec 1 inheritSample 0 none 0 none).1.fcb_refcount 7
        = inheritSample.fcb_refcount 7
          + (List.range 1).countP (fun i => (inheritSample.PT 0).fidt i == some 7) :=
  ⟨rfl,
   (@c5_exec_inherits_handles 1 inheritSample 0 2 [3] none 0 none rfl).1,
   (((@c5_exec_inherits_handles 1 inheritSample 0 2 [3] none 0 none rfl).2.1
      (by decide) (by decide)).1 0 (by decide)).1,
   ((@c5_exec_inherits_handles 1 inheritSample 0 2 [3] none 0 none rfl).2.1
      (by decide) (by decide)).2 7⟩

lemma exec_core_some {MF : Nat} {s : KState} {cur np : Nat} {rest : List Nat}
    {cv : Nat} {argl : Int} {args : Option Nat}
    (hfl : s.pcb_freelist = np :: rest) :
    sys_Exec_core MF s cur (some cv) argl args
      = ((exec_spawn (exec_common MF (acquire_PCB s).1 np cur (some cv) argl args)
            np cv argl args).1,
         (np : Int),
         some (exec_spawn (exec_common MF (acquire_PCB s).1 np cur (some cv) argl args)
            np cv argl args).2) := by
  simp only [sys_Exec_core, acquire_ret hfl]

lemma exec_spawn_snd (s5 : KState) (np c : Nat) (argl : Int) (args : Option Nat) :
    (exec_spawn s5 np c argl args).2 = s5.next_tcb := rfl

lemma exec_spawn_thread_count (s5 : KState) (np c : Nat) (argl : Int)
    (args : Option Nat) :
    ((exec_spawn s5 np c argl args).1.PT np).thread_count = 1 := by
  unfold exec_spawn
  simp only [updPT_PT_same]

lemma exec_spawn_main_thread (s5 : KState) (np c : Nat) (argl : Int)
    (args : Option Nat) :
    ((exec_spawn s5 np c argl args).1.PT np).main_thread = some s5.next_tcb := by
  unfold exec_spawn
  simp only [updPT_PT_same]

lemma exec_spawn_main_task (s5 : KState) (np c : Nat) (argl : Int)
    (args : Option Nat) :
    ((exec_spawn s5 np c argl args).1.PT np).main_task = (s5.PT np).main_task := by
  unfold exec_spawn
  simp only [updPT_PT_same]
  rfl

lemma exec_spawn_ptcb_list (s5 : KState) (np c : Nat) (argl : Int)
    (args : Option Nat) :
    ((exec_spawn s5 np c argl args).1.PT np).ptcb_list
      = (s5.PT np).ptcb_list
        ++ [{ task := c, argl := argl, args := args, tcb := s5.next_tcb }] := by
  unfold exec_spawn
  simp only [updPT_PT_same]
  rfl

lemma exec_common_main_task (MF : Nat) (s1 : KState) (np cur : Nat)
    (call : Option Nat) (argl : Int) (args : Option Nat) :
    ((exec_common MF s1 np cur call argl args).PT np).main_task = call := by
  unfold exec_common
  simp only [updPT_PT_same]
  rw [exec_copy_args_PT]
  simp only [updPT_PT_same]

/-- Sample state for C7: the caller (PID 0) passes a one-byte argument
buffer living in heap block 5; slot 2 is the next free slot, thread ids
and heap blocks are handed out from 0. -/
def spawnSample : KState :=
  { PT := fun p => if p = 0 then { pstate := .ALIVE } else {},
    process_count := 1, pcb_freelist := [2],
    heap := fun b => if b = 5 then [9, 9] else [], next_alloc := 0 }

/-- C7 (counterexample): on a successful `sys_Exec` with a non-null
entry point and a non-null argument buffer, the thread-control record
(`init_ptcb(call, argl, args)`, line 199) stores the *caller's*
argument pointer (heap block 5), while the storage owned by the new
process is the fresh `malloc`ed copy (heap block 0, line 186) recorded
in `newproc->args` — the record does not reference the process-owned
storage, refuting that part of the claim. -/
theorem c7_ptcb_args_counterexample :
    (sys_Exec 16 spawnSample 0 (some 1) 1 (some 5)).2 = 2
    ∧ ((sys_Exec 16 spawnSample 0 (some 1) 1 (some 5)).1.PT 2).ptcb_list
        = [{ task := 1, argl := 1, args := some 5, tcb := 0 }]
    ∧ ((sys_Exec 16 spawnSample 0 (some 1) 1 (some 5)).1.PT 2).args = some 0
    ∧ ({ task := 1, argl := 1, args := some 5, tcb := 0 } : PTCB).args
        ≠ ((sys_Exec 16 spawnSample 0 (some 1) 1 (some 5)).1.PT 2).args := by
  decide

/-- C7 (amended): when `sys_Exec` is given a non-null entry point and a
slot is available, it creates exactly one thread-control record —
referencing the entry point, the argument length, and the *caller's*
argument buffer (not the process-owned copy) — appends it to the slot's
thread list, sets `thread_count` to 1, attaches the spawned thread as
the slot's `main_thread`, records the entry point as `main_task`, and
performs the scheduling wakeup as the very last step: the wakeup target
is exactly the spawned thread and the wakeup changes no process-table
field, so every slot field already has its final value when the thread
becomes runnable. -/
theorem c7_exec_spawn_wakeup_last {MF : Nat} {s : KState} {cur np : Nat}
    {rest : List Nat} {cv : Nat} {argl : Int} {args : Option Nat}
    (hfl : s.pcb_freelist = np :: rest) :
    (sys_Exec_core MF s cur (some cv) argl args).2.1 = (np : Int)
    ∧ (sys_Exec_core MF s cur (some cv) argl args).2.2 = some s.next_tcb
    ∧ ((sys_Exec_core MF s cur (some cv) argl args).1.PT np).thread_count = 1
    ∧ ((sys_Exec_core MF s cur (some cv) argl args).1.PT np).main_thread
        = some s.next_tcb
    ∧ ((sys_Exec_core MF s cur (some cv) argl args).1.PT np).main_task = some cv
    ∧ ((sys_Exec_core MF s cur (some cv) argl args).1.PT np).ptcb_list
        = (s.PT np).ptcb_list
          ++ [{ task := cv, argl := argl, args := args, tcb := s.next_tcb }]
    ∧ sys_Exec MF s cur (some cv) argl args
        = (wakeup (sys_Exec_core MF s cur (some cv) argl args).1 s.next_tcb,
           (np : Int))
    ∧ (wakeup (sys_Exec_core MF s cur (some cv) argl args).1 s.next_tcb).PT
        = (sys_Exec_core MF s cur (some cv) argl args).1.PT
    ∧ (wakeup (sys_Exec_core MF s cur (some cv) argl args).1 s.next_tcb).runnable
        = (sys_Exec_core MF s cur (some cv) argl args).1.runnable
          ++ [s.next_tcb] := by
  have hc := @exec_core_some MF s cur np rest cv argl args hfl
  have hnt : (exec_common MF (acquire_PCB s).1 np cur (some cv) argl args).next_tcb
      = s.next_tcb := by
    rw [exec_common_next_tcb, acquire_next_tcb]
  refine ⟨?_, ?_, ?_, ?_, ?_, ?_, ?_, rfl, rfl⟩
  · rw [hc]
  · rw [hc, exec_spawn_snd, hnt]
  · rw [hc]
    exact exec_spawn_thread_count _ _ _ _ _
  · rw [hc, exec_spawn_main_thread, hnt]
  · rw [hc, exec_spawn_main_task, exec_common_main_task]
  · rw [hc, exec_spawn_ptcb_list, exec_common_PT_ptcb, acquire_PT_ptcb, hnt]
  · simp only [sys_Exec, hc]
    rw [exec_spawn_snd, hnt]

theorem c7_exec_spawn_wakeup_last_witness :
    spawnSample.pcb_freelist = 2 :: []
    ∧ (sys_Exec_core 16 spawnSample 0 (some 1) 1 (some 5)).2.2
        = some spawnSample.next_tcb
    ∧ ((sys_Exec_core 16 spawnSample 0 (some 1) 1 (some 5)).1.PT 2).thread_count = 1
    ∧ ((sys_Exec_core 16 spawnSample 0 (some 1) 1 (some 5)).1.PT 2).main_thread
        = some spawnSample.next_tcb
    ∧ ((sys_Exec_core 16 spawnSample 0 (some 1) 1 (some 5)).1.PT 2).ptcb_list
        = (spawnSample.PT 2).ptcb_list
          ++ [{ task := 1, argl := 1, args := some 5, tcb := spawnSample.next_tcb }]
    ∧ sys_Exec 16 spawnSample 0 (some 1) 1 (some 5)
        = (wakeup (sys_Exec_core 16 spawnSample 0 (some 1) 1 (some 5)).1
            spawnSample.next_tcb, ((2 : Nat) : Int)) :=
  ⟨rfl,
   (@c7_exec_spawn_wakeup_last 16 spawnSample 0 2 [] 1 1 (some 5) rfl).2.1,
   (@c7_exec_spawn_wakeup_last 16 spawnSample 0 2 [] 1 1 (some 5) rfl).2.2.1,
   (@c7_exec_spawn_wakeup_last 16 spawnSample 0 2 [] 1 1 (some 5) rfl).2.2.2.1,
   (@c7_exec_spawn_wakeup_last 16 spawnSample 0 2 [] 1 1 (some 5) rfl).2.2.2.2.2.1,
   (@c7_exec_spawn_wakeup_last 16 spawnSample 0 2 [] 1 1 (some 5) rfl).2.2.2.2.2.2.1⟩

lemma procinfo_scan_aux_some {f : Nat → PCB} {N : Nat} :
    ∀ (fuel c k : Nat), procinfo_scan_aux f N fuel c = some k →
      c ≤ k ∧ k < N ∧ (f k).pstate ≠ .FREE
        ∧ ∀ j, c ≤ j → j < k → (f j).pstate = .FREE := by
  intro fuel
  induction fuel with
  | zero => intro c k h; exact absurd h (by simp [procinfo_scan_aux])
  | succ fuel ih =>
      intro c k h
      unfold procinfo_scan_aux at h
      split at h
      · split at h
        · rename_i hcN hfc
          obtain ⟨h1, h2, h3, h4⟩ := ih (c + 1) k h
          refine ⟨by omega, h2, h3, ?_⟩
          intro j hj1 hj2
          by_cases hjc : j = c
          · subst hjc
            exact hfc
          · exact h4 j (by omega) hj2
        · rename_i hcN hfc
          injection h with h
          subst h
          exact ⟨Nat.le_refl c, hcN, hfc, fun j hj1 hj2 => absurd hj1 (by omega)⟩
      · exact Option.noConfusion h

lemma procinfo_scan_aux_none {f : Nat → PCB} {N : Nat} :
    ∀ (fuel c : Nat), N ≤ c + fuel → procinfo_scan_aux f N fuel c = none →
      ∀ j, c ≤ j → j < N → (f j).pstate = .FREE := by
  intro fuel
  induction fuel with
  | zero =>
      intro c hb _ j hj1 hj2
      omega
  | succ fuel ih =>
      intro c hb h j hj1 hj2
      unfold procinfo_scan_aux at h
      split at h
      · split at h
        · rename_i hcN hfc
          by_cases hjc : j = c
          · subst hjc
            exact hfc
          · exact ih (c + 1) (by omega) h j (by omega) hj2
        · exact Option.noConfusion h
      · rename_i hcN
        omega

lemma procinfo_scan_some {f : Nat → PCB} {N c k : Nat}
    (h : procinfo_scan f N c = some k) :
    c ≤ k ∧ k < N ∧ (f k).pstate ≠ .FREE
      ∧ ∀ j, c ≤ j → j < k → (f j).pstate = .FREE :=
  procinfo_scan_aux_some (N - c) c k h

lemma procinfo_scan_none {f : Nat → PCB} {N c : Nat}
    (h : procinfo_scan f N c = none) :
    ∀ j, c ≤ j → j < N → (f j).pstate = .FREE :=
  procinfo_scan_aux_none (N - c) c (by omega) h

/-- C9: each `procinfo_read` advances the cursor past every FREE slot
and copies the fixed-size snapshot of the next non-free record —
liveness flag, PID, parent PID, thread count, entry point, argument
length, and the argument bytes truncated to the fixed maximum, with all
other snapshot bytes retaining the previous read's contents — into the
caller's buffer (returning `some snapshot`, the model of returning
`sizeof(procinfo)` bytes), leaving the cursor one past the copied slot;
when no non-free slot remains the cursor parks at `MAX_PROC` and the
read returns zero bytes (`none`), and every read with the cursor at
`MAX_PROC` returns zero bytes with no state change at all — so all
subsequent reads keep returning zero. -/
theorem c9_procinfo_read {s : KState} {N M : Nat} {cb : ProcinfoCB} :
    (cb.pcbcursor = N → procinfo_read s N M cb = (cb, none))
    ∧ (cb.pcbcursor ≠ N → procinfo_scan s.PT N cb.pcbcursor = none →
        procinfo_read s N M cb = ({ cb with pcbcursor := N }, none)
        ∧ ∀ j, cb.pcbcursor ≤ j → j < N → (s.PT j).pstate = .FREE)
    ∧ (∀ k, cb.pcbcursor ≠ N → procinfo_scan s.PT N cb.pcbcursor = some k →
        cb.pcbcursor ≤ k ∧ k < N ∧ (s.PT k).pstate ≠ .FREE
        ∧ (∀ j, cb.pcbcursor ≤ j → j < k → (s.PT j).pstate = .FREE)
        ∧ procinfo_read s N M cb
            = (⟨k + 1, snapshot s M cb.info k⟩, some (snapshot s M cb.info k))
        ∧ (snapshot s M cb.info k).alive = ((s.PT k).pstate == PState.ALIVE)
        ∧ (snapshot s M cb.info k).pid = (k : Int)
        ∧ (snapshot s M cb.info k).ppid = get_pid (s.PT k).parent
        ∧ (snapshot s M cb.info k).thread_count = (s.PT k).thread_count
        ∧ (snapshot s M cb.info k).main_task = (s.PT k).main_task
        ∧ (snapshot s M cb.info k).argl = (s.PT k).argl
        ∧ (∀ i : Nat, ((i : Int) < (s.PT k).argl ∧ i < M) →
            (snapshot s M cb.info k).args i
              = (match (s.PT k).args with
                 | some b => s.heap b
                 | none => []).getD i 0)
        ∧ (∀ i : Nat, ¬((i : Int) < (s.PT k).argl ∧ i < M) →
            (snapshot s M cb.info k).args i = cb.info.args i)) := by
  refine ⟨?_, ?_, ?_⟩
  · intro hcur
    unfold procinfo_read
    rw [if_pos hcur]
  · intro hcur hscan
    refine ⟨?_, procinfo_scan_none hscan⟩
    unfold procinfo_read
    rw [if_neg hcur, hscan]
  · intro k hcur hscan
    obtain ⟨h1, h2, h3, h4⟩ := procinfo_scan_some hscan
    refine ⟨h1, h2, h3, h4, ?_, rfl, rfl, rfl, rfl, rfl, rfl, ?_, ?_⟩
    · unfold procinfo_read
      rw [if_neg hcur, hscan]
    · intro i hi
      unfold snapshot
      simp only [if_pos hi]
    · intro i hi
      unfold snapshot
      simp only [if_neg hi]

/-- Sample state for the C9 witness: slot 0 FREE, slot 1 ALIVE with a
three-byte argument block, slots beyond FREE; `PROCINFO_MAX_ARGS_SIZE`
is 2, so only the first two argument bytes are copied. -/
def procSample : KState :=
  { PT := fun p =>
      if p = 1 then { pstate := .ALIVE, parent := some 0, argl := 3, args := some 3,
                      thread_count := 1 }
      else {},
    heap := fun b => if b = 3 then [7, 8, 9] else [] }

theorem c9_procinfo_read_witness :
    procinfo_read procSample 3 2 { pcbcursor := 3 } = ({ pcbcursor := 3 }, none)
    ∧ (0 : Nat) ≠ 3
    ∧ procinfo_scan procSample.PT 3 0 = some 1
    ∧ procinfo_read procSample 3 2 { pcbcursor := 0 }
        = (⟨1 + 1, snapshot procSample 2 ({} : ProcInfo) 1⟩,
           some (snapshot procSample 2 ({} : ProcInfo) 1)) :=
  ⟨(c9_procinfo_read).1 rfl, by decide, by decide,
   ((c9_procinfo_read).2.2 1 (by decide) (by decide)).2.2.2.2.1⟩

end KernelProc
